import Mathlib

/-!
Verification development for the pyi4thrift grammar/builder/renderer module
(`src/pyi4thrift/peg.py`).

The module consists of
  * a Lark grammar (`_PYI_GRAMMAR`) compiled with `parser="lalr"` and the
    default contextual lexer, with `%ignore WS_INLINE`;
  * a family of dataclasses (`PYI`, `Struct`, `Enum`, ...) forming the
    document model, with Python `dict`s for the keyed collections;
  * `compose : PYI -> str`, a plain string builder;
  * `parse : str -> PYI` = Lark recognition followed by a hand-written walk
    of the concrete parse tree (`_parse_imports`, `_parse_methods`, ...).

Shallow embedding conventions used below.

Strings and characters are Lean `String`/`Char`; the lexer works on
`List Char`.  Python `dict` (insertion ordered, assignment to an existing
key replaces the value in place) is an association list together with
`dictInsert`.  Python attribute access on a possibly-`None` field is an
`Option` match whose `none` branch propagates failure (`Option`/`Except`).

The Lark pipeline is embedded as a deterministic recursive-descent
recognizer producing a concrete tree (`Node`), mirroring Lark's behaviour:

  * ignored `WS_INLINE` is consumed greedily before every terminal match.
    In Lark's lexer, terminals are ordered by priority and then by maximal
    pattern width, and within each parser state the unbounded-width
    terminals of this grammar (`IDENT`, `VALUE`, the `type` and `pkg`
    regexps, `NEWLINE`, `WS_INLINE`) match disjoint first characters, so
    greedy whitespace skipping before each token is faithful.  A
    consequence (visible in the grammar text) is that the anonymous token
    `"  ..."`, which begins with two spaces, can never be produced: the
    ignored whitespace run always swallows its leading spaces first.
  * `NEWLINE` (from `common.lark`) is `(\r?\n)+`, matched maximally, so a
    blank line is absorbed into the preceding newline token.
  * keyword literals that are also matched by `IDENT` ("from", "class",
    "def", "as", "import") are recognized through `IDENT`-maximal munch and
    retyped on exact equality exactly in the parser states where `IDENT`
    itself is acceptable; elsewhere they are matched as plain literals.
  * Lark's tree shaping is reproduced: anonymous string tokens are dropped
    from the tree, named terminals (`IDENT`, `VALUE`, `NEWLINE`) and
    anonymous regexp tokens (inside `type` and `pkg`) are kept, and every
    plain rule produces its own tree node (so `value: VALUE` yields a
    `value` tree whose child is the token, `enum: class_enum` yields an
    `enum` wrapper node, and so on).
  * the LALR automaton builds (the identically-produced `class_struct`
    and `class_union` never share a state, so there is no reduce/reduce
    collision), but every section boundary has a shift/reduce conflict
    on the `class_prefix` comment literal, and Lark resolves
    shift/reduce conflicts as shift.  That commits every class block to
    the `class_enum` production: the token after the class name must be
    `"(Enum):"`, a `(object):` or `(TException):` base marker is
    rejected there with a syntax error, and the `structs`, `unions`,
    `exceptions` and `services` sections of every accepted input are
    empty.  (Independently, the `method` and `init` productions could
    never complete anyway: their `"  ..."` ellipsis token is
    unproducible, per the first bullet.)  The embedding's class-block
    loop therefore accepts `(Enum):` blocks only.

The builder functions are line-by-line translations of the Python ones,
including their observable behaviour on the tree shape (`_token_value`
returns `""` on a `Tree`; `children[i]` out of range is an exception,
modelled as `Except.error`).
-/

/-- Concrete parse tree, mirroring lark's `Tree`/`Token`. -/
inductive Node where
  | tok (term : String) (text : String)
  | tree (data : String) (children : List Node)

/-- Children of a node; a token has none (the Python code only reads
`children` on `Tree` values). -/
def Node.childrenOf : Node → List Node
  | .tok _ _ => []
  | .tree _ cs => cs

/-- Rule name of a tree node (tokens have none). -/
def Node.dataOf : Node → Option String
  | .tok _ _ => none
  | .tree d _ => some d

/-- Python `isinstance(x, Tree) and x.data == rule`. -/
def Node.isTreeNamed (n : Node) (rule : String) : Bool :=
  match n with
  | .tree d _ => d = rule
  | .tok _ _ => false

/-- `_token_value`: a `Token` is its text (lark tokens are `str`
subclasses), anything else gives `""`. -/
def tokenValue : Node → String
  | .tok _ s => s
  | .tree _ _ => ""

/-- `_find_children`: the children of `t` that are trees named `rule`. -/
def findChildren (t : Node) (rule : String) : List Node :=
  t.childrenOf.filter (fun c => c.isTreeNamed rule)

/- ### The document model (the dataclasses of `peg.py`) -/

/-- Dataclass `Annotation` (field name and opaque type text). -/
structure Anno where
  name : String := ""
  type : String := ""
  deriving DecidableEq, Repr

/-- Dataclass `Parameter`; `annotation` may be `None`. -/
structure Param where
  anno : Option Anno := none
  default : String := ""
  deriving DecidableEq, Repr

/-- `Parameter.__name__`: the annotation's name, or `""` when the
annotation is `None`. -/
def Param.nameOf (p : Param) : String :=
  match p.anno with
  | some a => a.name
  | none => ""

/-- Dataclass `Init`. -/
structure InitT where
  params : List Param := []
  deriving DecidableEq, Repr

/-- Dataclass `Struct`; `annotations` is a Python dict keyed by field
name, modelled as an insertion-ordered association list. -/
structure StructT where
  name : String := ""
  annotations : List (String × Anno) := []
  init : InitT := {}
  deriving DecidableEq, Repr

/-- Dataclass `Union` (structurally identical to `Struct` but a distinct
type, as in the source). -/
structure UnionT where
  name : String := ""
  annotations : List (String × Anno) := []
  init : InitT := {}
  deriving DecidableEq, Repr

/-- Dataclass `Exc`. -/
structure ExcT where
  name : String := ""
  annotations : List (String × Anno) := []
  init : InitT := {}
  deriving DecidableEq, Repr

/-- Dataclass `Method`. -/
structure MethodT where
  name : String := ""
  params : List Param := []
  response : String := ""
  deriving DecidableEq, Repr

/-- Dataclass `Service`; `methods` is a Python dict keyed by method
name. -/
structure ServiceT where
  name : String := ""
  methods : List (String × MethodT) := []
  deriving DecidableEq, Repr

/-- Dataclass `ModuleAlias`. -/
structure MAlias where
  aliasName : String := ""
  deriving DecidableEq, Repr

/-- Dataclass `Module`; `module_alias` defaults to `ModuleAlias()` but a
caller may store `None`. -/
structure ModuleT where
  name : String := ""
  module_alias : Option MAlias := some {}
  deriving DecidableEq, Repr

/-- Dataclass `FromImport`. -/
structure FromImport where
  name : String := ""
  modules : List ModuleT := []
  deriving DecidableEq, Repr

/-- Dataclass `KeyValue` (an enum member). -/
structure KeyValue where
  name : String := ""
  value : String := ""
  deriving DecidableEq, Repr

/-- Dataclass `Const`. -/
structure ConstT where
  name : String := ""
  value : String := ""
  deriving DecidableEq, Repr

/-- Dataclass `Enum`. -/
structure EnumT where
  name : String := ""
  kvs : List KeyValue := []
  deriving DecidableEq, Repr

/-- Dataclass `PYI`, the document root; `imports` is a Python dict keyed
by package name. -/
structure PYI where
  imports : List (String × FromImport) := []
  consts : List ConstT := []
  enums : List EnumT := []
  structs : List StructT := []
  unions : List UnionT := []
  exceptions : List ExcT := []
  services : List ServiceT := []
  deriving DecidableEq, Repr

/-- Python dict assignment `m[k] = v`: if the key is present its value is
replaced in place (the entry keeps its position); otherwise the pair is
appended. -/
def dictInsert (m : List (String × α)) (k : String) (v : α) : List (String × α) :=
  if m.any (fun p => p.1 = k) then
    m.map (fun p => if p.1 = k then (k, v) else p)
  else
    m ++ [(k, v)]

/- ### The renderer (`compose`) -/

/-- Python whitespace as stripped by `str.rstrip()`. -/
def isPyWs (c : Char) : Bool :=
  c = ' ' || c = '\t' || c = '\n' || c = '\r' || c = '\x0b' || c = '\x0c'

/-- `str.rstrip()` on a character list. -/
def pyRstripL (l : List Char) : List Char :=
  (l.reverse.dropWhile isPyWs).reverse

/-- `str.rstrip()`. -/
def pyRstrip (s : String) : String :=
  ⟨pyRstripL s.data⟩

/-- `sep.join(parts)`. -/
def joinSep (sep : String) : List String → String
  | [] => ""
  | [x] => x
  | x :: y :: xs => x ++ sep ++ joinSep sep (y :: xs)

/-- `"".join(parts)`. -/
def strJoin : List String → String
  | [] => ""
  | x :: xs => x ++ strJoin xs

/-- Option-valued `mapM` with explicit recursion (used so that proofs can
unfold it directly). -/
def optMapM (f : α → Option β) : List α → Option (List β)
  | [] => some []
  | x :: xs =>
    match f x, optMapM f xs with
    | some y, some ys => some (y :: ys)
    | _, _ => none

/-- Rendering of one imported module: `name` or `name as alias`
(`compose`, imports section). -/
def renderModule (m : ModuleT) : String :=
  match m.module_alias with
  | some a => if a.aliasName ≠ "" then m.name ++ " as " ++ a.aliasName else m.name
  | none => m.name

/-- The parts contributed by the imports section; a trailing blank line is
appended only when the section is nonempty. -/
def importsParts (d : PYI) : List String :=
  if d.imports.isEmpty then [] else
    (d.imports.map (fun pf =>
      "from " ++ pf.1 ++ " import " ++ joinSep ", " (pf.2.modules.map renderModule) ++ "\n"))
      ++ ["\n"]

/-- One `name = value` line of the constants section. -/
def constPart (c : ConstT) : String :=
  c.name ++ " = " ++ c.value ++ "\n"

/-- The parts contributed by the constants section. -/
def constsParts (d : PYI) : List String :=
  if d.consts.isEmpty then [] else d.consts.map constPart ++ ["\n"]

/-- The parts contributed by one enum block. -/
def enumParts (e : EnumT) : List String :=
  ["# noinspection PyPep8Naming, PyShadowingNames\n",
   "class " ++ e.name ++ "(Enum):\n"]
    ++ e.kvs.map (fun kv => "    " ++ kv.name ++ " = " ++ kv.value ++ "\n")
    ++ ["\n"]

/-- The parts contributed by the enums section. -/
def enumsParts (d : PYI) : List String :=
  (d.enums.map enumParts).flatten

/-- One constructor-parameter line.  Python evaluates
`param.annotation.type`, which raises `AttributeError` when `annotation`
is `None`; that failure is the `none` result. -/
def paramLine (p : Param) : Option String :=
  match p.anno with
  | none => none
  | some a => some ("                 " ++ p.nameOf ++ ": " ++ a.type ++ " = " ++ p.default)

/-- The parts of one struct-like block (`compose` emits the same text for
`Struct`, `Union` and `Exc` up to the base marker). -/
def structLikeParts (base : String) (name : String) (annotations : List (String × Anno))
    (ini : InitT) : Option (List String) := do
  let mid ←
    if ini.params.isEmpty then
      pure ["                 ) -> None:\n"]
    else do
      let ls ← optMapM paramLine ini.params
      pure [joinSep ",\n" ls, ") -> None:\n"]
  pure (["# noinspection PyPep8Naming, PyShadowingNames\n",
         "class " ++ name ++ "(" ++ base ++ "):\n"]
    ++ annotations.map (fun na => "    " ++ na.1 ++ ": " ++ na.2.type ++ "\n")
    ++ ["\n    def __init__(self,\n"]
    ++ mid
    ++ ["        ...\n\n"])

/-- One method parameter rendered inside a `def` line; fails like
`paramLine` when the annotation is `None`. -/
def methodParamText (p : Param) : Option String :=
  match p.anno with
  | none => none
  | some a => some (p.nameOf ++ ": " ++ a.type ++ " = " ++ p.default)

/-- The parts of one service method. -/
def methodParts (mname : String) (m : MethodT) : Option (List String) := do
  let mid ←
    if m.params.isEmpty then
      pure ([] : List String)
    else do
      let ps ← optMapM methodParamText m.params
      pure [joinSep ", " ps]
  pure (["    def " ++ mname ++ "(self, "] ++ mid
    ++ [") -> " ++ m.response ++ ":\n", "        ...\n\n"])

/-- The parts of one service block. -/
def serviceParts (s : ServiceT) : Option (List String) := do
  let ms ← optMapM (fun nm => methodParts nm.1 nm.2) s.methods
  pure (["# noinspection PyPep8Naming, PyShadowingNames\n",
         "class " ++ s.name ++ "(object):\n"] ++ ms.flatten ++ ["\n"])

/-- The parts contributed by the four class-block sections (the only
sections whose rendering can fail, on a `None` parameter annotation). -/
def classParts (d : PYI) : Option (List String) := do
  let sb ← optMapM (fun s => structLikeParts "object" s.name s.annotations s.init) d.structs
  let ub ← optMapM (fun u => structLikeParts "object" u.name u.annotations u.init) d.unions
  let eb ← optMapM (fun e => structLikeParts "TException" e.name e.annotations e.init) d.exceptions
  let sv ← optMapM serviceParts d.services
  pure (sb.flatten ++ ub.flatten ++ eb.flatten ++ sv.flatten)

/-- The full `parts` list built by `compose` before joining. -/
def composeParts (d : PYI) : Option (List String) :=
  (classParts d).map (fun cp =>
    ["# coding:utf-8\n"] ++ importsParts d ++ constsParts d ++ enumsParts d ++ cp)

/-- `compose`: join the parts, right-strip, and append one newline.
`none` is Python raising (the `AttributeError` on a `None` parameter
annotation). -/
def compose (d : PYI) : Option String :=
  (composeParts d).map (fun ps => pyRstrip (strJoin ps) ++ "\n")

/- ### The lexer (Lark terminals, with `%ignore WS_INLINE`) -/

/-- `WS_INLINE`: inline whitespace, ignored by the grammar. -/
def isWsInline (c : Char) : Bool :=
  c = ' ' || c = '\t'

/-- Greedy consumption of ignored inline whitespace (see the header
comment: in every parser state of this grammar this is faithful to
Lark's terminal ordering). -/
def wsSkip (cs : List Char) : List Char :=
  cs.dropWhile isWsInline

/-- First character of `IDENT` (`[A-Za-z_]`). -/
def isIdentStart (c : Char) : Bool :=
  c.isAlpha || c = '_'

/-- Continuation character of `IDENT` and of `pkg` (`[\w._]`). -/
def isIdentCont (c : Char) : Bool :=
  c.isAlphanum || c = '_' || c = '.'

/-- First character of `pkg` (`[A-Za-z_.]`). -/
def isPkgStart (c : Char) : Bool :=
  c.isAlpha || c = '_' || c = '.'

/-- Characters of `VALUE`. -/
def isValueChar (c : Char) : Bool :=
  c.isAlphanum || c = '_' || c = '-' || c = '\'' || c = '.' || c = '"' ||
    c = '\x7b' || c = '\x7d'

/-- Characters of the `type` regexp (`[\w.\[\]]`). -/
def isTypeChar (c : Char) : Bool :=
  c.isAlphanum || c = '_' || c = '.' || c = '[' || c = ']'

/-- A parse failure: position (characters of input remaining) and a
description.  Lark's `UnexpectedCharacters`/`UnexpectedToken` and the
builder's `IndexError` are both embedded into this type. -/
structure PErr where
  pos : Nat
  msg : String
  deriving DecidableEq, Repr

/-- Error at the given remaining input. -/
def errAt (cs : List Char) (m : String) : PErr :=
  ⟨cs.length, m⟩

/-- Lex one maximal-munch regexp terminal after skipping ignored
whitespace. -/
def lexTokOf (start cont : Char → Bool) (m : String) (cs : List Char) :
    Except PErr (String × List Char) :=
  match wsSkip cs with
  | [] => .error (errAt [] m)
  | c :: rest =>
    if start c then .ok (⟨c :: rest.takeWhile cont⟩, rest.dropWhile cont)
    else .error (errAt (c :: rest) m)

/-- `IDENT`. -/
def lexIdent (cs : List Char) : Except PErr (String × List Char) :=
  lexTokOf isIdentStart isIdentCont "IDENT expected" cs

/-- The `pkg` regexp. -/
def lexPkg (cs : List Char) : Except PErr (String × List Char) :=
  lexTokOf isPkgStart isIdentCont "pkg expected" cs

/-- `VALUE`. -/
def lexValue (cs : List Char) : Except PErr (String × List Char) :=
  lexTokOf isValueChar isValueChar "VALUE expected" cs

/-- The `type` regexp. -/
def lexType (cs : List Char) : Except PErr (String × List Char) :=
  lexTokOf isTypeChar isTypeChar "type expected" cs

/-- Match an anonymous literal terminal after skipping ignored
whitespace.  (A literal beginning with spaces, such as `"  ..."`, can
therefore never match: its leading spaces have already been consumed as
ignored whitespace — exactly Lark's behaviour on this grammar.) -/
def lexLit (lit : String) (cs : List Char) : Except PErr (List Char) :=
  let cs1 := wsSkip cs
  if lit.data.isPrefixOf cs1 then .ok (cs1.drop lit.data.length)
  else .error (errAt cs1 ("expected " ++ lit))

/-- Maximal run of `(\r?\n)` repetitions (the body of `NEWLINE` from
`common.lark`). -/
def newlineSpan : List Char → List Char × List Char
  | '\n' :: rest =>
    let (a, r) := newlineSpan rest
    ('\n' :: a, r)
  | '\r' :: '\n' :: rest =>
    let (a, r) := newlineSpan rest
    ('\r' :: '\n' :: a, r)
  | cs => ([], cs)

/-- `NEWLINE`: one or more `\r?\n`, matched maximally, after ignored
whitespace. -/
def lexNewline (cs : List Char) : Except PErr (String × List Char) :=
  let cs1 := wsSkip cs
  match newlineSpan cs1 with
  | ([], _) => .error (errAt cs1 "NEWLINE expected")
  | (txt, rest) => .ok (⟨txt⟩, rest)

/- ### The recognizer (recursive descent over the grammar) -/

/-- `module: IDENT module_alias?` with `module_alias: "as" IDENT`.  The
`as` literal is matched where `IDENT` is not acceptable, hence by plain
prefix. -/
def pModule (cs : List Char) : Except PErr (Node × List Char) := do
  let (n, cs) ← lexIdent cs
  let cs1 := wsSkip cs
  if "as".data.isPrefixOf cs1 then do
    let (a, cs2) ← lexIdent (cs1.drop 2)
    pure (.tree "module" [.tok "IDENT" n, .tree "module_alias" [.tok "IDENT" a]], cs2)
  else
    pure (.tree "module" [.tok "IDENT" n], cs1)

/-- The `("," module)*` tail of `modules`. -/
def pModulesLoop (fuel : Nat) (acc : List Node) (cs : List Char) :
    Except PErr (List Node × List Char) :=
  match fuel with
  | 0 => .error (errAt cs "fuel exhausted")
  | fuel + 1 =>
    match wsSkip cs with
    | ',' :: rest => do
      let (m, cs2) ← pModule rest
      pModulesLoop fuel (acc ++ [m]) cs2
    | cs1 => .ok (acc, cs1)

/-- `modules: module ("," module)*`. -/
def pModules (fuel : Nat) (cs : List Char) : Except PErr (Node × List Char) := do
  let (m, cs) ← pModule cs
  let (ms, cs) ← pModulesLoop fuel [m] cs
  pure (.tree "modules" ms, cs)

/-- The remainder of `from_import` once the leading `from` keyword has
been recognized. -/
def pFromImportRest (fuel : Nat) (cs : List Char) : Except PErr (Node × List Char) := do
  let (p, cs) ← lexPkg cs
  let cs ← lexLit "import" cs
  let (ms, cs) ← pModules fuel cs
  let (nl, cs) ← lexNewline cs
  pure (.tree "from_import" [.tree "pkg" [.tok "PKG" p], ms, .tok "NEWLINE" nl], cs)

/-- `imports: from_import*`.  A leading `IDENT` other than `from` (or a
non-identifier) ends the section without consuming anything, exactly as
the LALR automaton's one-token lookahead does. -/
def pImportsLoop (fuel : Nat) (acc : List Node) (cs : List Char) :
    Except PErr (List Node × List Char) :=
  match fuel with
  | 0 => .error (errAt cs "fuel exhausted")
  | fuel + 1 =>
    match lexIdent cs with
    | .ok ("from", cs2) => do
      let (fi, cs3) ← pFromImportRest fuel cs2
      pImportsLoop fuel (acc ++ [fi]) cs3
    | _ => .ok (acc, cs)

/-- `value?`: a `value` tree is present exactly when the next character
can start `VALUE` (the alternative in this state is `NEWLINE`; the two
terminals share no first character). -/
def pValueOpt (cs : List Char) : Except PErr (Option Node × List Char) :=
  match wsSkip cs with
  | c :: rest =>
    if isValueChar c then do
      let (v, cs2) ← lexValue (c :: rest)
      pure (some (.tree "value" [.tok "VALUE" v]), cs2)
    else pure (none, c :: rest)
  | [] => pure (none, [])

/-- The remainder of `const`/`kv` (both are `IDENT "=" value? NEWLINE`)
after its leading identifier. -/
def pConstRest (rule : String) (name : String) (cs : List Char) :
    Except PErr (Node × List Char) := do
  let cs ← lexLit "=" cs
  let (vOpt, cs) ← pValueOpt cs
  let (nl, cs) ← lexNewline cs
  let mid := match vOpt with
    | some vn => [vn]
    | none => []
  pure (.tree rule ([Node.tok "IDENT" name] ++ mid ++ [Node.tok "NEWLINE" nl]), cs)

/-- `const*` and `kv*`: any leading `IDENT` commits to one more line. -/
def pKvLoop (rule : String) (fuel : Nat) (acc : List Node) (cs : List Char) :
    Except PErr (List Node × List Char) :=
  match fuel with
  | 0 => .error (errAt cs "fuel exhausted")
  | fuel + 1 =>
    match lexIdent cs with
    | .ok (n, cs2) => do
      let (c, cs3) ← pConstRest rule n cs2
      pKvLoop rule fuel (acc ++ [c]) cs3
    | .error _ => .ok (acc, cs)

/-- The class-block sections of `start` (`enums structs unions
exceptions services`).  Every block opens with the `class_prefix`
comment literal, which creates a shift/reduce conflict at each section
boundary (begin another `class_enum` vs close `enums` and begin
`structs`, whose blocks open with the same literal); Lark resolves
shift/reduce conflicts in favour of shift, committing every class block
to the `class_enum` production.  The token after the class name must
therefore be `"(Enum):"`: a `(object):` or `(TException):` base marker
is a syntax error, the `structs`/`unions`/`exceptions`/`services`
sections of every accepted input are empty, and the grammar's
`class_struct`/`class_union` ambiguity (identical productions) is never
exercised. -/
def pClassesLoop (fuel : Nat) (es : List Node) (cs : List Char) :
    Except PErr (List Node × List Char) :=
  match fuel with
  | 0 => .error (errAt cs "fuel exhausted")
  | fuel + 1 =>
    match wsSkip cs with
    | '#' :: rest => do
      let cs ← lexLit "# noinspection PyPep8Naming, PyShadowingNames" ('#' :: rest)
      let (nl0, cs) ← lexNewline cs
      let cs ← lexLit "class" cs
      let (name, cs) ← lexIdent cs
      let cs ← lexLit "(Enum):" cs
      let (nl1, cs) ← lexNewline cs
      let (kvs, cs3) ← pKvLoop "kv" fuel [] cs
      let node := Node.tree "enum"
        [Node.tree "class_enum"
          [Node.tree "class_prefix" [Node.tok "NEWLINE" nl0], Node.tok "IDENT" name,
           Node.tok "NEWLINE" nl1, Node.tree "kvs" kvs]]
      pClassesLoop fuel (es ++ [node]) cs3
    | cs1 => .ok (es, cs1)

/-- The section payloads recognized from one input: the header newline,
the `from_import` list, the `const` list, and the five class-block
lists — of which only the enum list can be nonempty, since the
shift-committed automaton rejects every non-`(Enum)` block (see
`pClassesLoop`). -/
def recognizeSections (s : String) :
    Except PErr (String × List Node × List Node ×
      (List Node × List Node × List Node × List Node × List Node)) := do
  let fuel := s.length + 1
  let cs ← lexLit "# coding:utf-8" s.data
  let (nlH, cs) ← lexNewline cs
  let (imps, cs) ← pImportsLoop fuel [] cs
  let (cons, cs) ← pKvLoop "const" fuel [] cs
  let (es, cs) ← pClassesLoop fuel [] cs
  let csEnd := wsSkip cs
  if csEnd.isEmpty then
    pure (nlH, imps, cons, (es, [], [], [], []))
  else .error (errAt csEnd "end of input expected")

/-- Assembly of the `start` tree from the recognized sections
(`start: header imports consts enums structs unions exceptions
services`). -/
def mkStartNode
    (r : String × List Node × List Node ×
      (List Node × List Node × List Node × List Node × List Node)) : Node :=
  Node.tree "start"
    [Node.tree "header" [Node.tok "NEWLINE" r.1],
     Node.tree "imports" r.2.1, Node.tree "consts" r.2.2.1,
     Node.tree "enums" r.2.2.2.1, Node.tree "structs" r.2.2.2.2.1,
     Node.tree "unions" r.2.2.2.2.2.1, Node.tree "exceptions" r.2.2.2.2.2.2.1,
     Node.tree "services" r.2.2.2.2.2.2.2]

/-- The recognizer: concrete `start` tree or syntax error. -/
def recognize (s : String) : Except PErr Node :=
  (recognizeSections s).map mkStartNode

/- ### The builder (the `_parse_*` walks of `peg.py`) -/

/-- Python `children[i]`: `IndexError` when out of range. -/
def childAt (n : Node) (i : Nat) : Except PErr Node :=
  match n.childrenOf[i]? with
  | some c => .ok c
  | none => .error ⟨0, "IndexError"⟩

/-- Python `list[0]` on a filtered child list. -/
def listHead (l : List Node) : Except PErr Node :=
  match l with
  | x :: _ => .ok x
  | [] => .error ⟨0, "IndexError"⟩

/-- `_parse_annotation`: reads `children[0]` and `children[1]` through
`_token_value`.  (`children[1]` is the `type` rule tree, not its token,
so the type text comes back empty.) -/
def parseAnnoE (t : Node) : Except PErr Anno := do
  let c0 ← childAt t 0
  let c1 ← childAt t 1
  pure ⟨tokenValue c0, tokenValue c1⟩

/-- `_parse_param`. -/
def parseParamE (t : Node) : Except PErr Param := do
  let c0 ← childAt t 0
  let c1 ← childAt t 1
  let a ← parseAnnoE c0
  pure ⟨some a, tokenValue c1⟩

/-- `_parse_params`. -/
def parseParamsE (t : Node) : Except PErr (List Param) :=
  t.childrenOf.foldlM (fun acc c =>
    if c.isTreeNamed "param" then do
      let p ← parseParamE c
      pure (acc ++ [p])
    else pure acc) []

/-- `_parse_annotations`: a dict keyed by annotation name. -/
def parseAnnotationsE (t : Node) : Except PErr (List (String × Anno)) :=
  t.childrenOf.foldlM (fun acc c =>
    if c.isTreeNamed "annotation" then do
      let a ← parseAnnoE c
      pure (dictInsert acc a.name a)
    else pure acc) []

/-- `_parse_init`. -/
def parseInitE (t : Node) : Except PErr InitT :=
  t.childrenOf.foldlM (fun ini c =>
    if c.isTreeNamed "params" then do
      let ps ← parseParamsE c
      pure ⟨ps⟩
    else pure ini) ⟨[]⟩

/-- The `for part in child.children[1:]` loop of `_parse_methods`:
a `params` tree refreshes the parameter list, any token (in particular
each `NEWLINE`) overwrites the response text. -/
def methodFold (parts : List Node) : Except PErr (List Param × String) :=
  parts.foldlM (fun (pr : List Param × String) part =>
    if part.isTreeNamed "params" then do
      let ps ← parseParamsE part
      pure (ps, pr.2)
    else
      match part with
      | .tok _ s => pure (pr.1, s)
      | .tree _ _ => pure pr) ([], "")

/-- `_parse_methods`: a dict keyed by method name. -/
def parseMethodsE (t : Node) : Except PErr (List (String × MethodT)) :=
  t.childrenOf.foldlM (fun acc child =>
    if child.isTreeNamed "method" then do
      let c0 ← childAt child 0
      let name := tokenValue c0
      let pr ← methodFold (child.childrenOf.drop 1)
      pure (dictInsert acc name ⟨name, pr.1, pr.2⟩)
    else pure acc) []

/-- `_parse_struct_like`. -/
def parseStructLikeE (t : Node) :
    Except PErr (String × List (String × Anno) × InitT) := do
  let c1 ← childAt t 1
  let name := tokenValue c1
  let r ← (t.childrenOf.drop 2).foldlM
    (fun (pr : List (String × Anno) × InitT) part =>
      if part.isTreeNamed "annotations" then do
        let a ← parseAnnotationsE part
        pure (a, pr.2)
      else if part.isTreeNamed "init" then do
        let i ← parseInitE part
        pure (pr.1, i)
      else pure pr) ([], ⟨[]⟩)
  pure (name, r.1, r.2)

/-- The inner module loop of `_parse_imports`. -/
def parseModulesFold (modulesTree : Node) : Except PErr (List ModuleT) :=
  modulesTree.childrenOf.foldlM (fun acc mt =>
    if mt.isTreeNamed "module" then do
      let c0 ← childAt mt 0
      let name := tokenValue c0
      let a ←
        if mt.childrenOf.length > 1 then do
          let alT ← childAt mt 1
          if alT.isTreeNamed "module_alias" then do
            let ac ← childAt alT 0
            pure (tokenValue ac)
          else pure ""
        else pure ""
      pure (acc ++ [ModuleT.mk name (some ⟨a⟩)])
    else pure acc) []

/-- `_parse_imports`: a dict keyed by package name. -/
def parseImportsE (t : Node) : Except PErr (List (String × FromImport)) :=
  t.childrenOf.foldlM (fun acc child =>
    if child.isTreeNamed "from_import" then do
      let pkgTree ← listHead (findChildren child "pkg")
      let c0 ← childAt pkgTree 0
      let pkg := tokenValue c0
      let modulesTree ← listHead (findChildren child "modules")
      let ms ← parseModulesFold modulesTree
      pure (dictInsert acc pkg ⟨pkg, ms⟩)
    else pure acc) []

/- Field-replacing helpers for the section assignments of `parse`. -/

/-- `pyi.imports = ...`. -/
def PYI.setImports (p : PYI) (v : List (String × FromImport)) : PYI :=
  ⟨v, p.consts, p.enums, p.structs, p.unions, p.exceptions, p.services⟩

/-- `pyi.consts = ...`. -/
def PYI.setConsts (p : PYI) (v : List ConstT) : PYI :=
  ⟨p.imports, v, p.enums, p.structs, p.unions, p.exceptions, p.services⟩

/-- `pyi.enums = ...`. -/
def PYI.setEnums (p : PYI) (v : List EnumT) : PYI :=
  ⟨p.imports, p.consts, v, p.structs, p.unions, p.exceptions, p.services⟩

/-- `pyi.structs = ...`. -/
def PYI.setStructs (p : PYI) (v : List StructT) : PYI :=
  ⟨p.imports, p.consts, p.enums, v, p.unions, p.exceptions, p.services⟩

/-- `pyi.unions = ...`. -/
def PYI.setUnions (p : PYI) (v : List UnionT) : PYI :=
  ⟨p.imports, p.consts, p.enums, p.structs, v, p.exceptions, p.services⟩

/-- `pyi.exceptions = ...`. -/
def PYI.setExceptions (p : PYI) (v : List ExcT) : PYI :=
  ⟨p.imports, p.consts, p.enums, p.structs, p.unions, v, p.services⟩

/-- `pyi.services = ...`. -/
def PYI.setServices (p : PYI) (v : List ServiceT) : PYI :=
  ⟨p.imports, p.consts, p.enums, p.structs, p.unions, p.exceptions, v⟩

/-- One iteration of the section loop in `parse`.  Note the level
mismatches present in the source: the `enums` tree contains `enum`
wrapper nodes (never `class_enum` directly), and likewise for `structs`,
`unions`, `exceptions` and `services`, so those comparisons never
match and the sections are rebuilt empty. -/
def buildSection (pyi : PYI) (child : Node) : Except PErr PYI :=
  match child with
  | .tok _ _ => pure pyi
  | .tree d _ =>
    if d = "imports" then do
      let i ← parseImportsE child
      pure (pyi.setImports i)
    else if d = "consts" then do
      let cs ← child.childrenOf.foldlM (fun acc ct =>
        if ct.isTreeNamed "const" then do
          let c0 ← childAt ct 0
          let c1 ← childAt ct 1
          pure (acc ++ [ConstT.mk (tokenValue c0) (tokenValue c1)])
        else pure acc) []
      pure (pyi.setConsts cs)
    else if d = "enums" then do
      let es ← child.childrenOf.foldlM (fun acc et =>
        if et.isTreeNamed "class_enum" then do
          let c1 ← childAt et 1
          let kvs ← et.childrenOf.foldlM (fun kacc kt =>
            if kt.isTreeNamed "kv" then do
              let k0 ← childAt kt 0
              let k1 ← childAt kt 1
              pure (kacc ++ [KeyValue.mk (tokenValue k0) (tokenValue k1)])
            else pure kacc) []
          pure (acc ++ [EnumT.mk (tokenValue c1) kvs])
        else pure acc) []
      pure (pyi.setEnums es)
    else if d = "structs" then do
      let ss ← child.childrenOf.foldlM (fun acc st =>
        if st.isTreeNamed "class_struct" then do
          let r ← parseStructLikeE st
          pure (acc ++ [StructT.mk r.1 r.2.1 r.2.2])
        else pure acc) []
      pure (pyi.setStructs ss)
    else if d = "unions" then do
      let us ← child.childrenOf.foldlM (fun acc ut =>
        if ut.isTreeNamed "class_union" then do
          let r ← parseStructLikeE ut
          pure (acc ++ [UnionT.mk r.1 r.2.1 r.2.2])
        else pure acc) []
      pure (pyi.setUnions us)
    else if d = "exceptions" then do
      let es ← child.childrenOf.foldlM (fun acc et =>
        if et.isTreeNamed "class_exception" then do
          let r ← parseStructLikeE et
          pure (acc ++ [ExcT.mk r.1 r.2.1 r.2.2])
        else pure acc) []
      pure (pyi.setExceptions es)
    else if d = "services" then do
      let vs ← child.childrenOf.foldlM (fun acc st =>
        if st.isTreeNamed "class_service" then do
          let c1 ← childAt st 1
          let name := tokenValue c1
          let ms ← (st.childrenOf.drop 2).foldlM (fun macc part =>
            if part.isTreeNamed "methods" then parseMethodsE part
            else pure macc) []
          pure (acc ++ [ServiceT.mk name ms])
        else pure acc) []
      pure (pyi.setServices vs)
    else pure pyi

/-- The tree walk of `parse` after recognition. -/
def buildPYI (root : Node) : Except PErr PYI :=
  root.childrenOf.foldlM buildSection {}

/-- `parse`: Lark recognition followed by the builder walk. -/
def parse (s : String) : Except PErr PYI := do
  let cst ← recognize s
  buildPYI cst

/-- Whether an `Except` computation succeeded. -/
def isOkE : Except ε α → Bool
  | .ok _ => true
  | .error _ => false

/- ### Spec-side comparator for empty-section omission -/

/-- Modelled from the spec (section 4.3 / testable property
"Empty-section omission"): the rendering of a document with the imports
section entirely omitted — no from-import line and no separating blank
line where that section would have been. -/
def composePartsNoImports (d : PYI) : Option (List String) :=
  (classParts d).map (fun cp =>
    ["# coding:utf-8\n"] ++ constsParts d ++ enumsParts d ++ cp)

/-- Modelled from the spec: the full rendering pipeline applied to the
imports-free part list. -/
def composeNoImports (d : PYI) : Option String :=
  (composePartsNoImports d).map (fun ps => pyRstrip (strJoin ps) ++ "\n")

/- ### Wellformedness for totality of `compose` -/

/-- A parameter whose `annotation` is not `None`. -/
def paramAnnotated (p : Param) : Bool :=
  p.anno.isSome

/-- Every constructor parameter and every method parameter of the
document carries an annotation. -/
def wfAnnos (d : PYI) : Bool :=
  d.structs.all (fun s => s.init.params.all paramAnnotated) &&
  d.unions.all (fun u => u.init.params.all paramAnnotated) &&
  d.exceptions.all (fun e => e.init.params.all paramAnnotated) &&
  d.services.all (fun sv => sv.methods.all (fun nm => nm.2.params.all paramAnnotated))

/- ### Concrete inputs used by the claim theorems -/

/-- A document holding a single constant `X = 1`. -/
def constDoc : PYI :=
  ⟨[], [⟨"X", "1"⟩], [], [], [], [], []⟩

/-- What `compose` produces from `constDoc`. -/
def constDocText : String :=
  "# coding:utf-8\nX = 1\n"

/-- A canonical enum block whose member line carries the canonical
4-space indentation. -/
def enumIndentText : String :=
  "# coding:utf-8\n# noinspection PyPep8Naming, PyShadowingNames\nclass Color(Enum):\n    RED = 1\n"

/-- The same enum block with the member line not indented at all. -/
def enumNoIndentText : String :=
  "# coding:utf-8\n# noinspection PyPep8Naming, PyShadowingNames\nclass Color(Enum):\nRED = 1\n"

/-- A service block holding two canonically formatted method
definitions with the same name `f` and different signatures. -/
def svcDupMethodText : String :=
  "# coding:utf-8\n# noinspection PyPep8Naming, PyShadowingNames\nclass S(object):\n    def f(self, ) -> int:\n        ...\n\n    def f(self, x: int = 1) -> str:\n        ...\n"

/-- A document whose single struct has one constructor parameter with
`annotation = None`. -/
def badParamDoc : PYI :=
  ⟨[], [], [], [⟨"S", [], ⟨[⟨none, ""⟩]⟩⟩], [], [], []⟩

/-- A document with annotated constructor and method parameters
everywhere. -/
def annotatedDoc : PYI :=
  ⟨[], [], [],
   [⟨"S", [("x", ⟨"x", "int"⟩)], ⟨[⟨some ⟨"x", "int"⟩, "1"⟩]⟩⟩],
   [⟨"U", [], ⟨[]⟩⟩],
   [⟨"E", [], ⟨[⟨some ⟨"z", "str"⟩, "None"⟩]⟩⟩],
   [⟨"Svc", [("m", ⟨"m", [⟨some ⟨"y", "str"⟩, "2"⟩], "int"⟩)]⟩]⟩

/-- A document with no imports but a constant and an enum. -/
def noImportsDoc : PYI :=
  ⟨[], [⟨"K", "2"⟩], [⟨"Color", [⟨"RED", "1"⟩]⟩], [], [], [], []⟩

/-- The smallest canonical document text: the header line alone. -/
def headerOnlyText : String :=
  "# coding:utf-8\n"

/-- The `start` tree the recognizer yields on `headerOnlyText`. -/
def headerOnlyTree : Node :=
  Node.tree "start"
    [Node.tree "header" [Node.tok "NEWLINE" "\n"],
     Node.tree "imports" [], Node.tree "consts" [], Node.tree "enums" [],
     Node.tree "structs" [], Node.tree "unions" [], Node.tree "exceptions" [],
     Node.tree "services" []]

/-- The ordered rule names of the eight children of `start`. -/
def startSectionNames : List (Option String) :=
  [some "header", some "imports", some "consts", some "enums",
   some "structs", some "unions", some "exceptions", some "services"]

/-- A `method` tree as the recognizer would shape it (anonymous string
tokens dropped; `params` tree, `type` tree and the two `NEWLINE` tokens
kept). -/
def methodNode (name : String) (params : List Node) (t : String) : Node :=
  .tree "method"
    [.tok "IDENT" name, .tree "params" params, .tree "type" [.tok "TYPE" t],
     .tok "NEWLINE" "\n", .tok "NEWLINE" "\n"]

/-- A `param` tree (annotation subtree plus `value` subtree). -/
def paramNode (n t v : String) : Node :=
  .tree "param"
    [.tree "annotation" [.tok "IDENT" n, .tree "type" [.tok "TYPE" t]],
     .tree "value" [.tok "VALUE" v]]

/-- An `annotation` tree (one field line `n: t`). -/
def annNode (n t : String) : Node :=
  .tree "annotation" [.tok "IDENT" n, .tree "type" [.tok "TYPE" t]]

/-- A `module` tree without alias. -/
def moduleNode (n : String) : Node :=
  .tree "module" [.tok "IDENT" n]

/-- A `from_import` tree. -/
def fromImportNode (pkg : String) (ms : List Node) : Node :=
  .tree "from_import" [.tree "pkg" [.tok "PKG" pkg], .tree "modules" ms, .tok "NEWLINE" "\n"]

/-- A `methods` tree with two definitions of `f` (the first with one
parameter, the last with none) around one definition of `g`. -/
def dupMethodsTree : Node :=
  .tree "methods"
    [methodNode "f" [paramNode "x" "int" "1"] "int",
     methodNode "g" [] "str",
     methodNode "f" [] "str"]

/-- An `imports` tree in which package `p` occurs first and last with
different module lists, around package `q`. -/
def dupImportsTree : Node :=
  .tree "imports"
    [fromImportNode "p" [moduleNode "A"],
     fromImportNode "q" [moduleNode "B"],
     fromImportNode "p" [moduleNode "C"]]

/-- An `annotations` tree in which field `f` occurs first and last with
different type texts, around field `g`. -/
def dupAnnotationsTree : Node :=
  .tree "annotations" [annNode "f" "T1", annNode "g" "U", annNode "f" "T2"]

/-- An `annotations` tree for a record block with two field lines named
`a` of types `i32` and `i64` around a field `b`. -/
def dupFieldLinesTree : Node :=
  .tree "annotations" [annNode "a" "i32", annNode "b" "str", annNode "a" "i64"]

/-- A no-imports document used to instantiate the compose-shape
theorem. -/
def trimDemoDoc : PYI :=
  ⟨[], [⟨"A", "b"⟩], [], [], [], [], []⟩

/-- What `compose` produces from `trimDemoDoc`. -/
def trimDemoText : String :=
  "# coding:utf-8\nA = b\n"

/-- The canonical enum block with its member line indented by 1 space. -/
def enumIndent1Text : String :=
  "# coding:utf-8\n# noinspection PyPep8Naming, PyShadowingNames\nclass Color(Enum):\n RED = 1\n"

/-- The canonical enum block with its member line indented by 8 spaces. -/
def enumIndent8Text : String :=
  "# coding:utf-8\n# noinspection PyPep8Naming, PyShadowingNames\nclass Color(Enum):\n        RED = 1\n"

/-- The canonical enum block with its member line indented by one tab. -/
def enumIndentTabText : String :=
  "# coding:utf-8\n# noinspection PyPep8Naming, PyShadowingNames\nclass Color(Enum):\n\tRED = 1\n"

/-- Two constant lines separated by a truly empty line (absorbed into
the maximal `NEWLINE` token). -/
def blankLineCleanText : String :=
  "# coding:utf-8\nX = 1\n\nY = 2\n"

/-- The same two constant lines, but the separating line holds a single
space: the space splits the maximal `NEWLINE` token in two, and the
grammar accepts no second `NEWLINE` there. -/
def blankLineSpaceText : String :=
  "# coding:utf-8\nX = 1\n \nY = 2\n"

/-- A document with one import and nothing else. -/
def importsOnlyDoc : PYI :=
  ⟨[("a", ⟨"a", [⟨"x", some ⟨""⟩⟩]⟩)], [], [], [], [], [], []⟩

/-- Modelled from the spec ("an empty section is skipped entirely,
including its separating blank line"): the rendering with the constants
section entirely omitted. -/
def composeNoConsts (d : PYI) : Option String :=
  ((classParts d).map (fun cp =>
    ["# coding:utf-8\n"] ++ importsParts d ++ enumsParts d ++ cp)).map
    (fun ps => pyRstrip (strJoin ps) ++ "\n")

/-- Modelled from the spec: the rendering with the enums section
entirely omitted. -/
def composeNoEnums (d : PYI) : Option String :=
  ((classParts d).map (fun cp =>
    ["# coding:utf-8\n"] ++ importsParts d ++ constsParts d ++ cp)).map
    (fun ps => pyRstrip (strJoin ps) ++ "\n")

/-- Modelled from the spec: the rendering with the four class-block
sections entirely omitted (without them nothing can fail). -/
def composeNoClasses (d : PYI) : Option String :=
  some (pyRstrip (strJoin
    (["# coding:utf-8\n"] ++ importsParts d ++ constsParts d ++ enumsParts d)) ++ "\n")

/- ### Helper lemmas -/

/-- The head of a `dropWhile` result does not satisfy the predicate. -/
theorem dropWhile_head_not (p : Char → Bool) (l : List Char) :
    ∀ c cs, l.dropWhile p = c :: cs → p c = false := by
  induction l with
  | nil => intro c cs h; simp [List.dropWhile] at h
  | cons x xs ih =>
    intro c cs h
    rw [List.dropWhile_cons] at h
    split at h
    · exact ih c cs h
    · next hx =>
      cases h
      simpa using hx

/-- `dropWhile` is idempotent. -/
theorem dropWhile_idem (p : Char → Bool) (l : List Char) :
    (l.dropWhile p).dropWhile p = l.dropWhile p := by
  cases hd : l.dropWhile p with
  | nil => simp
  | cons c cs =>
    have hc := dropWhile_head_not p l c cs hd
    simp [List.dropWhile_cons, hc]

/-- `dropWhile` over an append. -/
theorem dropWhile_append_eq (p : Char → Bool) (a b : List Char) :
    (a ++ b).dropWhile p =
      if a.dropWhile p = [] then b.dropWhile p else a.dropWhile p ++ b := by
  induction a with
  | nil => simp
  | cons x xs ih =>
    by_cases hx : p x
    · simpa [List.dropWhile_cons, hx] using ih
    · simp [List.dropWhile_cons, hx]

/-- Right-stripping an append. -/
theorem pyRstripL_append (a b : List Char) :
    pyRstripL (a ++ b) =
      if pyRstripL b = [] then pyRstripL a else a ++ pyRstripL b := by
  unfold pyRstripL
  rw [List.reverse_append, dropWhile_append_eq]
  by_cases hb : b.reverse.dropWhile isPyWs = []
  · simp [hb]
  · have hb2 : ¬ (b.reverse.dropWhile isPyWs).reverse = [] := by
      simpa using hb
    simp [hb, hb2]

/-- Right-stripping is idempotent. -/
theorem pyRstripL_idem (l : List Char) :
    pyRstripL (pyRstripL l) = pyRstripL l := by
  unfold pyRstripL
  rw [List.reverse_reverse, dropWhile_idem]

/-- A trailing newline is removed by right-stripping. -/
theorem pyRstripL_newline (x : List Char) :
    pyRstripL (x ++ ['\n']) = pyRstripL x := by
  rw [pyRstripL_append]
  simp [pyRstripL, List.dropWhile, isPyWs]

/-- The last character of a right-stripped list is not whitespace. -/
theorem pyRstripL_getLast_not_ws (l : List Char) (c : Char)
    (h : (pyRstripL l).getLast? = some c) : isPyWs c = false := by
  unfold pyRstripL at h
  rw [List.getLast?_reverse] at h
  cases hd : l.reverse.dropWhile isPyWs with
  | nil => rw [hd] at h; simp at h
  | cons x xs =>
    rw [hd] at h
    simp at h
    subst h
    exact dropWhile_head_not _ _ _ _ hd

/-- Unfolding `strJoin` on a cons. -/
theorem strJoin_cons (a : String) (l : List String) :
    strJoin (a :: l) = a ++ strJoin l := rfl

/-- `String.data` distributes over append. -/
theorem strData_append (a b : String) : (a ++ b).data = a.data ++ b.data := rfl

/-- `String.data` of `pyRstrip`. -/
theorem pyRstrip_data (s : String) : (pyRstrip s).data = pyRstripL s.data := rfl

/-- `optMapM` succeeds when every element does. -/
theorem optMapM_isSome (f : α → Option β) (l : List α)
    (h : ∀ x ∈ l, (f x).isSome = true) : (optMapM f l).isSome = true := by
  induction l with
  | nil => simp [optMapM]
  | cons x xs ih =>
    have hx := h x (by simp)
    have hxs := ih (fun y hy => h y (by simp [hy]))
    unfold optMapM
    cases hfx : f x with
    | none => rw [hfx] at hx; simp at hx
    | some y =>
      cases hmx : optMapM f xs with
      | none => rw [hmx] at hxs; simp at hxs
      | some ys => simp

deriving instance DecidableEq for Except

/- ### Claim theorems -/

/-- C1: the claimed round trip `parse (compose d) = d` fails on the code
at the one-constant document: the builder reads `children[1]` of a
`const` node, which is the `value` rule tree rather than its token, so
`_token_value` yields `""` and the constant's value `"1"` is lost.  This
theorem evaluates the pipeline at the failing input of the code-bug
record. -/
theorem c1_round_trip_fails_at_const_doc :
    compose constDoc = some constDocText ∧
    parse constDocText = .ok (⟨[], [⟨"X", ""⟩], [], [], [], [], []⟩ : PYI) ∧
    (⟨[], [⟨"X", ""⟩], [], [], [], [], []⟩ : PYI) ≠ constDoc := by
  refine ⟨by decide, by decide, by decide⟩

/-- C2 (counterexample): `compose` is not total — on a document whose
struct has a constructor parameter with `annotation = None`, the
renderer evaluates `param.annotation.type` and crashes. -/
theorem c2_compose_crashes_on_none_anno : compose badParamDoc = none := by decide

/-- C3 (counterexample): an input whose enum member line is not indented
by 4 spaces (it is indented by 0) is accepted by `parse`, while the
claim says every such input is rejected. -/
theorem c3_wrong_indentation_accepted : isOkE (parse enumNoIndentText) = true := by decide

/-- Lexing skips a leading run of ignored inline whitespace wholesale. -/
theorem wsSkip_ws_append (ind cs : List Char) (h : ind.all isWsInline = true) :
    wsSkip (ind ++ cs) = wsSkip cs := by
  induction ind with
  | nil => rfl
  | cons x xs ih =>
    simp only [List.all_cons, Bool.and_eq_true] at h
    show (x :: (xs ++ cs)).dropWhile isWsInline = wsSkip cs
    rw [List.dropWhile_cons]
    simp only [h.1, if_true]
    exact ih h.2

/-- Lexing an identifier is invariant under any leading inline
whitespace: the indentation before a member line's identifier is
discarded before the token is matched. -/
theorem lexIdent_ws_append (ind cs : List Char) (h : ind.all isWsInline = true) :
    lexIdent (ind ++ cs) = lexIdent cs := by
  unfold lexIdent lexTokOf
  rw [wsSkip_ws_append ind cs h]

/-- C3 (amended): indentation of an enum member line is not validated —
the grammar writes no indentation literal there and the lexer discards
any inline-whitespace run before the identifier (for every whitespace
run `ind`, `lexIdent (ind ++ cs) = lexIdent cs`) — so the canonical
enum document parses to the identical Document when its member line is
indented by 0, 1 or 8 spaces, or a tab, instead of the canonical 4.
Wrong inline whitespace is not universally harmless, though: a single
space on an otherwise blank line splits the maximal `NEWLINE` token and
the input is rejected, while the space-free variant parses.  (Field and
constructor-parameter lines cannot exhibit the claim either way: their
blocks are rejected at the base marker.) -/
theorem c3_member_indent_not_checked :
    (∀ (ind cs : List Char), ind.all isWsInline = true →
      lexIdent (ind ++ cs) = lexIdent cs) ∧
    parse enumNoIndentText = parse enumIndentText ∧
    parse enumIndent1Text = parse enumIndentText ∧
    parse enumIndent8Text = parse enumIndentText ∧
    parse enumIndentTabText = parse enumIndentText ∧
    isOkE (parse enumIndentText) = true ∧
    isOkE (parse blankLineCleanText) = true ∧
    isOkE (parse blankLineSpaceText) = false := by
  refine ⟨lexIdent_ws_append, by decide, by decide, by decide, by decide,
    by decide, by decide, by decide⟩

/-- C3 (witness): the lexer-invariance conjunct applied at a concrete
two-character whitespace run. -/
theorem c3_member_indent_not_checked_witness :
    ([' ', '\t'].all isWsInline = true) ∧
    lexIdent ([' ', '\t'] ++ "RED = 1".data) = lexIdent "RED = 1".data :=
  ⟨by decide, c3_member_indent_not_checked.1 [' ', '\t'] "RED = 1".data (by decide)⟩

/-- C4: a service block with two same-named, canonically formatted
method definitions is rejected by `parse` with a syntax error (the
grammar's `"  ..."` body-marker token is unproducible under
`%ignore WS_INLINE`, and `compose`-style bodies are indented by 8
spaces), contrary to the claim that such input parses with last-wins
methods.  Evaluates the code at the failing input of the code-bug
record. -/
theorem c4_service_methods_unparseable : isOkE (parse svcDupMethodText) = false := by
  set_option maxRecDepth 40000 in decide

/-- C5 (counterexample): re-inserting the method name `f` into the
methods dict does not move its entry — the key order after parsing
`f, g, f` is `[f, g]`, not the `[g, f]` the claim's "does move" part
requires. -/
theorem c5_method_reinsertion_does_not_move :
    (parseMethodsE dupMethodsTree).map (fun l => l.map Prod.fst) = .ok ["f", "g"] ∧
    (Except.ok ["f", "g"] : Except PErr (List String)) ≠ .ok ["g", "f"] := by
  refine ⟨by decide, by decide⟩

/-- Re-insertion under an existing key leaves the key sequence — the
insertion order — unchanged. -/
theorem dictInsert_keys_of_mem {α : Type} (m : List (String × α)) (k : String) (v : α)
    (h : k ∈ m.map Prod.fst) :
    (dictInsert m k v).map Prod.fst = m.map Prod.fst := by
  unfold dictInsert
  have hany : m.any (fun p => p.1 = k) = true := by
    rw [List.any_eq_true]
    obtain ⟨p, hp, hpk⟩ := List.mem_map.mp h
    exact ⟨p, hp, by simp [hpk]⟩
  rw [if_pos hany, List.map_map]
  apply List.map_congr_left
  intro p _
  by_cases hpk : p.1 = k
  · simp [hpk]
  · simp [hpk]

/-- Looking a key up after replacing its value in place finds the new
value. -/
theorem lookup_mapRepl {α : Type} : ∀ (m : List (String × α)) (k : String) (v : α),
    k ∈ m.map Prod.fst →
    (m.map (fun p => if p.1 = k then (k, v) else p)).lookup k = some v := by
  intro m k v h
  induction m with
  | nil => simp at h
  | cons p ps ih =>
    obtain ⟨pk, pv⟩ := p
    simp only [List.map_cons]
    by_cases hpk : pk = k
    · rw [if_pos hpk]
      simp [List.lookup]
    · rw [if_neg hpk]
      have h' : k ∈ ps.map Prod.fst := by
        simp only [List.map_cons, List.mem_cons] at h
        rcases h with h1 | h2
        · exact absurd h1.symm hpk
        · exact h2
      have hkp : (k == pk) = false := by
        simp only [beq_eq_false_iff_ne, ne_eq]
        intro hc
        exact hpk hc.symm
      simp only [List.lookup, hkp]
      exact ih h'

/-- Re-insertion under an existing key replaces the value there. -/
theorem dictInsert_lookup {α : Type} (m : List (String × α)) (k : String) (v : α)
    (h : k ∈ m.map Prod.fst) :
    (dictInsert m k v).lookup k = some v := by
  unfold dictInsert
  have hany : m.any (fun p => p.1 = k) = true := by
    rw [List.any_eq_true]
    obtain ⟨p, hp, hpk⟩ := List.mem_map.mp h
    exact ⟨p, hp, by simp [hpk]⟩
  rw [if_pos hany]
  exact lookup_mapRepl m k v h

/-- Insertion under a fresh key appends the pair at the end. -/
theorem dictInsert_append_of_not_mem {α : Type} (m : List (String × α)) (k : String) (v : α)
    (h : k ∉ m.map Prod.fst) :
    dictInsert m k v = m ++ [(k, v)] := by
  unfold dictInsert
  have hany : ¬ (m.any (fun p => p.1 = k) = true) := by
    intro hc
    rw [List.any_eq_true] at hc
    obtain ⟨p, hp, hpk⟩ := hc
    exact h (List.mem_map.mpr ⟨p, hp, by simpa using hpk⟩)
  rw [if_neg hany]

/-- C5 (amended): all the ordered maps behave alike.  In general, the
Python dict assignment `m[k] = v` (the `dictInsert` through which
`_parse_imports`, `_parse_annotations` and `_parse_methods` store every
entry) replaces the value under an existing key without moving the
entry's position and appends under a fresh key; instantiated at
duplicate-key trees for each of the three builders. -/
theorem c5_reinsertion_keeps_position_overwrites_value :
    (∀ (α : Type) (m : List (String × α)) (k : String) (v : α),
      k ∈ m.map Prod.fst →
        (dictInsert m k v).map Prod.fst = m.map Prod.fst ∧
        (dictInsert m k v).lookup k = some v) ∧
    (∀ (α : Type) (m : List (String × α)) (k : String) (v : α),
      k ∉ m.map Prod.fst → dictInsert m k v = m ++ [(k, v)]) ∧
    parseImportsE dupImportsTree =
      .ok [("p", ⟨"p", [⟨"C", some ⟨""⟩⟩]⟩), ("q", ⟨"q", [⟨"B", some ⟨""⟩⟩]⟩)] ∧
    parseAnnotationsE dupAnnotationsTree =
      .ok [("f", ⟨"f", ""⟩), ("g", ⟨"g", ""⟩)] ∧
    parseMethodsE dupMethodsTree =
      .ok [("f", ⟨"f", [], "\n"⟩), ("g", ⟨"g", [], "\n"⟩)] := by
  refine ⟨fun α m k v h => ⟨dictInsert_keys_of_mem m k v h, dictInsert_lookup m k v h⟩,
    fun α m k v h => dictInsert_append_of_not_mem m k v h,
    by decide, by decide, by decide⟩

/-- C5 (witness): the general re-insertion conjuncts applied at a
concrete two-entry map with an existing and a fresh key. -/
theorem c5_reinsertion_keeps_position_overwrites_value_witness :
    (dictInsert [("a", 1), ("b", 2)] "a" 3).map Prod.fst = ["a", "b"] ∧
    (dictInsert [("a", 1), ("b", 2)] "a" 3).lookup "a" = some 3 ∧
    dictInsert [("a", 1), ("b", 2)] "c" 4 = [("a", 1), ("b", 2), ("c", 4)] := by
  obtain ⟨hmem, hfresh, -, -, -⟩ := c5_reinsertion_keeps_position_overwrites_value
  obtain ⟨h1, h2⟩ := hmem Nat [("a", 1), ("b", 2)] "a" 3 (by decide)
  exact ⟨h1, h2, hfresh Nat [("a", 1), ("b", 2)] "c" 4 (by decide)⟩

/-- C6: rendering is not idempotent through a parse cycle — the pipeline
succeeds on the one-constant document, but the recomposed text drops the
constant's value (and the trailing `rstrip` then eats the orphaned
space), so the bytes differ.  Evaluates the code at the failing input of
the code-bug record. -/
theorem c6_recompose_not_idempotent_at_const_doc :
    compose constDoc = some constDocText ∧
    (parse constDocText).map compose = .ok (some "# coding:utf-8\nX =\n") ∧
    some "# coding:utf-8\nX =\n" ≠ some constDocText := by
  refine ⟨by decide, by decide, by decide⟩

/-- C8 (counterexample): the recognizer's root node for an accepted
input has eight ordered children, not the seven the claim states. -/
theorem c8_root_children_not_seven :
    (recognize headerOnlyText).map (fun n => n.childrenOf.length) = .ok 8 ∧
    (8 : Nat) ≠ 7 := by
  refine ⟨by decide, by decide⟩

/-- C9: within one record block, duplicate field lines `a: i32` and
`a: i64` collapse to a single entry that keeps the first position, but
the entry's type text is `""` — the builder reads the `type` rule node
instead of its token (the unused `_text_of` helper was written for this)
— not the last occurrence's text `"i64"`.  Evaluates `_parse_annotations`
at the failing input of the code-bug record. -/
theorem c9_field_type_text_dropped :
    parseAnnotationsE dupFieldLinesTree = .ok [("a", ⟨"a", ""⟩), ("b", ⟨"b", ""⟩)] ∧
    (Anno.mk "a" "").type ≠ "i64" := by
  refine ⟨by decide, by decide⟩

/-- An annotated parameter always yields a constructor-parameter line. -/
theorem paramLine_isSome (p : Param) (h : paramAnnotated p = true) :
    (paramLine p).isSome = true := by
  unfold paramLine
  cases hp : p.anno with
  | none => rw [paramAnnotated, hp] at h; simp at h
  | some a => simp

/-- An annotated parameter always yields a method-parameter fragment. -/
theorem methodParamText_isSome (p : Param) (h : paramAnnotated p = true) :
    (methodParamText p).isSome = true := by
  unfold methodParamText
  cases hp : p.anno with
  | none => rw [paramAnnotated, hp] at h; simp at h
  | some a => simp

/-- A struct-like block renders whenever all its constructor parameters
are annotated. -/
theorem structLikeParts_isSome (base name : String) (anns : List (String × Anno))
    (ini : InitT) (h : ini.params.all paramAnnotated = true) :
    (structLikeParts base name anns ini).isSome = true := by
  unfold structLikeParts
  cases he : ini.params.isEmpty with
  | true => simp [he]
  | false =>
    have hm : (optMapM paramLine ini.params).isSome = true :=
      optMapM_isSome _ _ (fun p hp => paramLine_isSome p (List.all_eq_true.mp h p hp))
    cases hmm : optMapM paramLine ini.params with
    | none => rw [hmm] at hm; simp at hm
    | some ls => simp [he, hmm]

/-- A method renders whenever all its parameters are annotated. -/
theorem methodParts_isSome (mname : String) (m : MethodT)
    (h : m.params.all paramAnnotated = true) :
    (methodParts mname m).isSome = true := by
  unfold methodParts
  cases he : m.params.isEmpty with
  | true => simp [he]
  | false =>
    have hm : (optMapM methodParamText m.params).isSome = true :=
      optMapM_isSome _ _ (fun p hp => methodParamText_isSome p (List.all_eq_true.mp h p hp))
    cases hmm : optMapM methodParamText m.params with
    | none => rw [hmm] at hm; simp at hm
    | some ls => simp [he, hmm]

/-- A service block renders whenever all its methods' parameters are
annotated. -/
theorem serviceParts_isSome (s : ServiceT)
    (h : s.methods.all (fun nm => nm.2.params.all paramAnnotated) = true) :
    (serviceParts s).isSome = true := by
  unfold serviceParts
  have hm : (optMapM (fun nm => methodParts nm.1 nm.2) s.methods).isSome = true :=
    optMapM_isSome _ _ (fun nm hnm =>
      methodParts_isSome nm.1 nm.2 (List.all_eq_true.mp h nm hnm))
  cases hmm : optMapM (fun nm => methodParts nm.1 nm.2) s.methods with
  | none => rw [hmm] at hm; simp at hm
  | some ms => simp [hmm]

/-- The class-block sections render under `wfAnnos`. -/
theorem classParts_isSome (d : PYI) (h : wfAnnos d = true) :
    (classParts d).isSome = true := by
  simp only [wfAnnos, Bool.and_eq_true] at h
  obtain ⟨⟨⟨h1, h2⟩, h3⟩, h4⟩ := h
  unfold classParts
  have hs : (optMapM (fun s => structLikeParts "object" s.name s.annotations s.init) d.structs).isSome = true :=
    optMapM_isSome _ _ (fun s hs =>
      structLikeParts_isSome _ _ _ _ (List.all_eq_true.mp h1 s hs))
  have hu : (optMapM (fun u => structLikeParts "object" u.name u.annotations u.init) d.unions).isSome = true :=
    optMapM_isSome _ _ (fun u hu =>
      structLikeParts_isSome _ _ _ _ (List.all_eq_true.mp h2 u hu))
  have he : (optMapM (fun e => structLikeParts "TException" e.name e.annotations e.init) d.exceptions).isSome = true :=
    optMapM_isSome _ _ (fun e he =>
      structLikeParts_isSome _ _ _ _ (List.all_eq_true.mp h3 e he))
  have hv : (optMapM serviceParts d.services).isSome = true :=
    optMapM_isSome _ _ (fun sv hsv => serviceParts_isSome sv (List.all_eq_true.mp h4 sv hsv))
  cases hsm : optMapM (fun s => structLikeParts "object" s.name s.annotations s.init) d.structs with
  | none => rw [hsm] at hs; simp at hs
  | some sb =>
    cases hum : optMapM (fun u => structLikeParts "object" u.name u.annotations u.init) d.unions with
    | none => rw [hum] at hu; simp at hu
    | some ub =>
      cases hem : optMapM (fun e => structLikeParts "TException" e.name e.annotations e.init) d.exceptions with
      | none => rw [hem] at he; simp at he
      | some eb =>
        cases hvm : optMapM serviceParts d.services with
        | none => rw [hvm] at hv; simp at hv
        | some sv => simp [hsm, hum, hem, hvm]

/-- C2 (amended): `compose` is total on every document all of whose
constructor parameters and method parameters carry an annotation
(`annotation` is not `None`); the only failure mode of the renderer is
the attribute access on a `None` annotation. -/
theorem c2_compose_total_when_annotated (d : PYI) (h : wfAnnos d = true) :
    (compose d).isSome = true := by
  have hc := classParts_isSome d h
  cases hcc : classParts d with
  | none => rw [hcc] at hc; simp at hc
  | some cp => simp [compose, composeParts, hcc]

/-- C2 (witness): the amended totality theorem applied at a concrete
fully annotated document. -/
theorem c2_compose_total_when_annotated_witness :
    wfAnnos annotatedDoc = true ∧ (compose annotatedDoc).isSome = true :=
  ⟨by decide, c2_compose_total_when_annotated annotatedDoc (by decide)⟩

/-- C7: an empty section is skipped entirely, including its separating
blank line.  With zero imports the imports section contributes no parts
— no `from ... import` line and no blank-line separator — and the
rendering equals the spec-side rendering without an imports section;
likewise for the constants section, the enums section, and the four
class-block sections together. -/
theorem c7_empty_sections_omitted (d : PYI) :
    (d.imports = [] → importsParts d = [] ∧ compose d = composeNoImports d) ∧
    (d.consts = [] → constsParts d = [] ∧ compose d = composeNoConsts d) ∧
    (d.enums = [] → enumsParts d = [] ∧ compose d = composeNoEnums d) ∧
    (d.structs = [] → d.unions = [] → d.exceptions = [] → d.services = [] →
      classParts d = some [] ∧ compose d = composeNoClasses d) := by
  refine ⟨?_, ?_, ?_, ?_⟩
  · intro h
    have hip : importsParts d = [] := by simp [importsParts, h]
    refine ⟨hip, ?_⟩
    unfold compose composeNoImports composeParts composePartsNoImports
    rw [hip]
    simp
  · intro h
    have hcp : constsParts d = [] := by simp [constsParts, h]
    refine ⟨hcp, ?_⟩
    unfold compose composeNoConsts composeParts
    rw [hcp]
    simp
  · intro h
    have hep : enumsParts d = [] := by simp [enumsParts, h]
    refine ⟨hep, ?_⟩
    unfold compose composeNoEnums composeParts
    rw [hep]
    simp
  · intro h1 h2 h3 h4
    have hcl : classParts d = some [] := by
      unfold classParts
      rw [h1, h2, h3, h4]
      rfl
    refine ⟨hcl, ?_⟩
    unfold compose composeNoClasses composeParts
    rw [hcl]
    simp

/-- C7 (witness): each empty-section conjunct applied at a concrete
document with that section empty — no imports (a document holding a
constant and an enum), and no consts, enums or class blocks (a document
holding one import). -/
theorem c7_empty_sections_omitted_witness :
    (importsParts noImportsDoc = [] ∧ compose noImportsDoc = composeNoImports noImportsDoc) ∧
    (constsParts importsOnlyDoc = [] ∧ compose importsOnlyDoc = composeNoConsts importsOnlyDoc) ∧
    (enumsParts importsOnlyDoc = [] ∧ compose importsOnlyDoc = composeNoEnums importsOnlyDoc) ∧
    (classParts importsOnlyDoc = some [] ∧
      compose importsOnlyDoc = composeNoClasses importsOnlyDoc) :=
  ⟨(c7_empty_sections_omitted noImportsDoc).1 rfl,
   (c7_empty_sections_omitted importsOnlyDoc).2.1 rfl,
   (c7_empty_sections_omitted importsOnlyDoc).2.2.1 rfl,
   (c7_empty_sections_omitted importsOnlyDoc).2.2.2 rfl rfl rfl rfl⟩

/-- C8 (amended): for every input accepted by the recognizer, the root
of the concrete parse tree has exactly eight ordered children — header,
imports, consts, enums, structs, unions, exceptions, services — with
services last; a rejected input yields a structured error (a `PErr`
with the offending position). -/
theorem c8_root_has_eight_ordered_sections (s : String) (cst : Node)
    (h : recognize s = .ok cst) :
    cst.childrenOf.map Node.dataOf = startSectionNames := by
  unfold recognize at h
  cases hr : recognizeSections s with
  | error e => rw [hr] at h; simp [Except.map] at h
  | ok r =>
    rw [hr] at h
    simp [Except.map] at h
    subst h
    rfl

/-- C8 (witness): the eight-sections theorem applied at the header-only
input. -/
theorem c8_root_has_eight_ordered_sections_witness :
    recognize headerOnlyText = .ok headerOnlyTree ∧
    headerOnlyTree.childrenOf.map Node.dataOf = startSectionNames :=
  ⟨rfl, c8_root_has_eight_ordered_sections headerOnlyText headerOnlyTree rfl⟩

/-- The parts list always begins with the header line. -/
theorem composeParts_head (d : PYI) (ps : List String) (h : composeParts d = some ps) :
    ∃ rest, ps = "# coding:utf-8\n" :: rest := by
  unfold composeParts at h
  cases hc : classParts d with
  | none => rw [hc] at h; simp at h
  | some cp =>
    rw [hc] at h
    simp at h
    exact ⟨_, h.symm⟩

/-- Characters of the final output: right-stripped join plus one
newline. -/
theorem rstripNl_data (t : String) :
    (pyRstrip t ++ "\n").data = pyRstripL t.data ++ ['\n'] := rfl

/-- The output is its own right-strip plus one newline. -/
theorem selfRstrip (t : String) :
    (pyRstrip t ++ "\n").data = (pyRstrip (pyRstrip t ++ "\n")).data ++ ['\n'] := by
  rw [rstripNl_data, pyRstrip_data, rstripNl_data, pyRstripL_newline, pyRstripL_idem]

/-- The last character before the final newline is never whitespace. -/
theorem lastNotWs (t : String) (c : Char) (h : (pyRstrip t).data.getLast? = some c) :
    isPyWs c = false :=
  pyRstripL_getLast_not_ws t.data c (by rwa [pyRstrip_data] at h)

/-- The rendered output always begins with the header text. -/
theorem headerLeads (rest : List String) :
    ∃ r, (pyRstrip (strJoin ("# coding:utf-8\n" :: rest)) ++ "\n").data =
      ("# coding:utf-8").data ++ r := by
  rw [rstripNl_data, strJoin_cons, strData_append, pyRstripL_append]
  by_cases hb : pyRstripL (strJoin rest).data = []
  · rw [if_pos hb]
    exact ⟨['\n'], by decide⟩
  · rw [if_neg hb]
    refine ⟨'\n' :: (pyRstripL (strJoin rest).data ++ ['\n']), ?_⟩
    have hh : ("# coding:utf-8\n").data = ("# coding:utf-8").data ++ ['\n'] := by decide
    rw [hh, List.append_assoc, List.append_assoc]
    rfl

/-- C10: composing the all-empty document yields exactly the header line
`# coding:utf-8` with one newline; and every `compose` output starts
with that header text, equals its own right-strip plus a newline, and
ends in exactly one newline (the character before the final newline is
never whitespace). -/
theorem c10_header_and_trailing_newline :
    compose ({} : PYI) = some "# coding:utf-8\n" ∧
    ∀ d s, compose d = some s →
      (∃ r, s.data = ("# coding:utf-8").data ++ r) ∧
      s.data = (pyRstrip s).data ++ ['\n'] ∧
      (∀ c, (pyRstrip s).data.getLast? = some c → isPyWs c = false) := by
  refine ⟨by decide, ?_⟩
  intro d s h
  unfold compose at h
  cases hp : composeParts d with
  | none => rw [hp] at h; simp at h
  | some ps =>
    rw [hp] at h
    simp at h
    obtain ⟨rest, hps⟩ := composeParts_head d ps hp
    subst hps
    subst h
    refine ⟨headerLeads rest, selfRstrip _, ?_⟩
    intro c hc
    exact lastNotWs _ c hc

/-- C10 (witness): the shape theorem applied at the one-constant
document and its rendered text. -/
theorem c10_header_and_trailing_newline_witness :
    (∃ r, trimDemoText.data = ("# coding:utf-8").data ++ r) ∧
    trimDemoText.data = (pyRstrip trimDemoText).data ++ ['\n'] ∧
    (∀ c, (pyRstrip trimDemoText).data.getLast? = some c → isPyWs c = false) :=
  c10_header_and_trailing_newline.2 trimDemoDoc trimDemoText (by decide)
